import Mathlib

/-!
Verification development for the OpenToMe repository (Token Merging for
Vision Transformers).

The Python sources embedded here are:
  * `src/opentome/timm/tome.py` — `ToMeAttention.forward`, `ToMeBlock.forward`,
    `make_tome_class` / `ToMeVisionTransformer.forward`, `tome_apply_patch`;
  * `src/evaluations/throughput/benchmark.py` — `ThroughputBenchmark.run`.

Real-valued tensor arithmetic is embedded over `ℚ`; the transcendental
functions `exp` and `log` (floating-point in the source) are abstracted as a
parameter record `FloatOps`, so every definition stays executable.  Tensors
indexed `[batch, tokens, channels]` are embedded one batch element at a time:
a token is a function `Fin C → ℚ` and a sequence is a `List` of tokens (the
batch dimension is an independent pointwise map, restored explicitly where a
claim speaks about batch elements).  Dropout, drop-path and autocast are
identities in eval mode (`self.training = False`, `p = 0`), which is the mode
every claim concerns, so they are embedded as the identity.
-/

namespace OpenToMe

/-- Abstraction of the floating-point transcendental functions used by the
source (`size.log()`, `softmax`'s internal `exp`).  Keeping them as record
fields keeps the embedding computable; facts such as `log 1 = 0` enter as
hypotheses where a claim depends on them. -/
structure FloatOps where
  exp : ℚ → ℚ
  log : ℚ → ℚ

/-- A token: one feature vector of dimension `C`. -/
def Tok (C : ℕ) : Type := Fin C → ℚ

/-- The zero token, used as the out-of-range default for list indexing. -/
def zeroTok {C : ℕ} : Tok C := fun _ => 0

/-- Elementwise sum of two token sequences (a residual connection
`x + y` on `[N, C]` tensors of equal length). -/
def addTok {C : ℕ} (x y : List (Tok C)) : List (Tok C) :=
  x.zipWith (fun a b => fun c => a c + b c) y

/-- Dot product of two `D`-dimensional vectors. -/
def dotD {D : ℕ} (u v : Tok D) : ℚ :=
  ∑ d : Fin D, u d * v d

/-- Softmax over a list of scores: exponentiate and normalise by the sum
(`attn.softmax(dim=-1)` on one row). -/
def softmaxList (ops : FloatOps) (l : List ℚ) : List ℚ :=
  let e := l.map ops.exp
  e.map (fun v => v / e.sum)

/-- Weighted sum of a list of `D`-vectors with a list of scalar weights
(`attn @ v` for one query row). -/
def weightedSum {D : ℕ} (w : List ℚ) (v : List (Tok D)) : Tok D :=
  fun d => ((w.zip v).map (fun p => p.1 * p.2 d)).sum

/-- Parameters of one attention module.  The source computes `qkv(x)` with a
single `Linear(C, 3C)` and reshapes to per-head tensors; slicing that weight
matrix per head and per role gives exactly one linear map (with bias folded
in) per head for each of q, k, v, which is how the parameters are embedded.
`proj` is the output projection `Linear(C, C)` applied to the concatenated
heads, and `scale` is `self.scale = head_dim ** -0.5`. -/
structure AttnParams (H D C : ℕ) where
  wq : Fin H → Tok C → Tok D
  wk : Fin H → Tok C → Tok D
  wv : Fin H → Tok C → Tok D
  proj : (Fin H → Tok D) → Tok C
  scale : ℚ

/-- The value stored under the `"metric"` key of the dict returned by an
attention module.  `ToMeAttention` always returns a tensor, but
`ToMeBlock.forward` is written against an arbitrary attention attribute, whose
metric could be a float, a tensor, or something non-numeric (the case its
`assert isinstance(metric['metric'], (float, torch.Tensor))` guards). -/
inductive MetricVal (D : ℕ) : Type
  | float (v : ℚ)
  | tensor (m : List (Tok D))
  | invalid (desc : String)

/-- The dict `dict(metric = ...)` returned by attention alongside its
output. -/
structure MetricDict (D : ℕ) where
  metric : MetricVal D

/-- The `isinstance(metric['metric'], (float, torch.Tensor))` test of
`ToMeBlock.forward` line 91. -/
def MetricVal.isNumeric {D : ℕ} : MetricVal D → Bool
  | .float _ => true
  | .tensor _ => true
  | .invalid _ => false

/-- Pre-softmax attention score of query `i` against key `j` for head `h` in
`ToMeAttention.forward`: `(q @ k.transpose(-2, -1)) * self.scale`, plus the
proportional-attention bias `size.log()[..., j]` when a size vector is given
(`if size is not None: attn = attn + size.log()[:, None, None, :, 0]`).  The
fused branch (`F.scaled_dot_product_attention` with `attn_mask =
size.log()`) adds the same bias to the same scaled scores before softmax, so
both branches share this semantics. -/
def ToMeAttention.preScore {H D C : ℕ} (p : AttnParams H D C) (ops : FloatOps)
    (x : List (Tok C)) (size : Option (List ℚ)) (h : Fin H) (i j : ℕ) : ℚ :=
  dotD (p.wq h (x.getD i zeroTok)) (p.wk h (x.getD j zeroTok)) * p.scale +
    match size with
    | none => 0
    | some s => ops.log (s.getD j 0)

/-- One row of pre-softmax scores: query `i` against every key. -/
def ToMeAttention.scoreRow {H D C : ℕ} (p : AttnParams H D C) (ops : FloatOps)
    (x : List (Tok C)) (size : Option (List ℚ)) (h : Fin H) (i : ℕ) : List ℚ :=
  (List.range x.length).map (fun j => ToMeAttention.preScore p ops x size h i j)

/-- Attention output of head `h` at query position `i`:
`softmax(scores) @ v`. -/
def ToMeAttention.headOut {H D C : ℕ} (p : AttnParams H D C) (ops : FloatOps)
    (x : List (Tok C)) (size : Option (List ℚ)) (h : Fin H) (i : ℕ) : Tok D :=
  weightedSum (softmaxList ops (ToMeAttention.scoreRow p ops x size h i))
    (x.map (p.wv h))

/-- The metric tensor `k.mean(1)` returned by `ToMeAttention.forward`: the
mean of the per-head key projections across the head dimension, one
`D`-vector per token of the current input. -/
def ToMeAttention.metricTensor {H D C : ℕ} (p : AttnParams H D C)
    (x : List (Tok C)) : List (Tok D) :=
  x.map (fun t => fun d => (∑ h : Fin H, p.wk h t d) / (H : ℚ))

/-- Embedding of `ToMeAttention.forward` (tome.py lines 38–71), one batch
element, eval mode: compute q, k, v per head, score with optional
proportional-attention bias, softmax, weight v, concatenate the heads through
the output projection, and return the result together with
`dict(metric = k.mean(1))`. -/
def ToMeAttention.forward {H D C : ℕ} (p : AttnParams H D C) (ops : FloatOps)
    (x : List (Tok C)) (size : Option (List ℚ)) :
    List (Tok C) × MetricDict D :=
  ((List.range x.length).map
      (fun i => p.proj (fun h => ToMeAttention.headOut p ops x size h i)),
   { metric := MetricVal.tensor (ToMeAttention.metricTensor p x) })

/-- Batched `ToMeAttention.forward`: the `[B, N, C]` input is a list of batch
elements, processed independently (every tensor operation in the source is
pointwise in the batch dimension).  The optional size is batched the same
way. -/
def ToMeAttention.forwardBatch {H D C : ℕ} (p : AttnParams H D C)
    (ops : FloatOps) (xs : List (List (Tok C))) (sizes : Option (List (List ℚ))) :
    List (List (Tok C) × MetricDict D) :=
  match sizes with
  | none => xs.map (fun x => ToMeAttention.forward p ops x none)
  | some ss => (xs.zip ss).map (fun p2 => ToMeAttention.forward p ops p2.1 (some p2.2))

/-- Pre-softmax score of the unpatched timm `Attention.forward`
(the baseline the patch replaces): `(q @ k.transpose(-2, -1)) * self.scale`,
no size bias. -/
def Attention.preScore {H D C : ℕ} (p : AttnParams H D C)
    (x : List (Tok C)) (h : Fin H) (i j : ℕ) : ℚ :=
  dotD (p.wq h (x.getD i zeroTok)) (p.wk h (x.getD j zeroTok)) * p.scale

/-- Embedding of the unpatched timm `Attention.forward` (the behaviour with
the merge machinery disabled): plain softmax attention, no size bias, no
metric. -/
def Attention.forward {H D C : ℕ} (p : AttnParams H D C) (ops : FloatOps)
    (x : List (Tok C)) : List (Tok C) :=
  (List.range x.length).map
    (fun i => p.proj (fun h =>
      weightedSum
        (softmaxList ops
          ((List.range x.length).map (fun j => Attention.preScore p x h i j)))
        (x.map (p.wv h))))

/-- The `_tome_info` dict installed by `tome_apply_patch` and threaded through
every block.  `r` holds the per-layer schedule (the dict's initial placeholder
`model.r = 0`, an int, is represented by the empty schedule: popping either
one before `forward` has rewritten the field is an error, and
`ToMeVisionTransformer.forward` overwrites the field before any block runs).
`size` and `source` are `None` until the first merge initialises them. -/
structure TomeInfo where
  r : List ℕ
  size : Option (List ℚ)
  source : Option (List (Finset ℕ))
  totalMerge : Option ℕ
  traceSource : Bool
  propAttn : Bool
  classToken : Bool
  distillToken : Bool
deriving DecidableEq

/-- The size argument `ToMeBlock.forward` passes to attention (tome.py line
89): `self._tome_info["size"] if self._tome_info["prop_attn"] else None`. -/
def attnSizeArg (info : TomeInfo) : Option (List ℚ) :=
  if info.propAttn then info.size else none

/-- The merge machinery invoked by the `r > 0` branch of `ToMeBlock.forward`
(tome.py lines 96–106): the composite of `bipartite_soft_matching`,
`merge_source` and `merge_wavg`, imported from `opentome/tome/tome.py`, a
module that is not under src/.  The block-level claims hold for an arbitrary
implementation of this interface, so it is kept as a parameter record: given
the metric, the popped count `r`, the protected-token flags, the current
tokens, size, tracing flag and source, it returns the merged tokens and the
updated size and source. -/
structure MergeOps (D C : ℕ) where
  apply : MetricVal D → ℕ → Bool → Bool → List (Tok C) → Option (List ℚ) →
    Bool → Option (List (Finset ℕ)) →
    List (Tok C) × Option (List ℚ) × Option (List (Finset ℕ))

/-- The per-token sublayers of one transformer block: the two layer norms,
the two `LayerScale`s (identity when absent) and the MLP, all position-wise
maps.  Drop-path is the identity in eval mode. -/
structure BlockMaps (C : ℕ) where
  norm1 : Tok C → Tok C
  norm2 : Tok C → Tok C
  ls1 : Tok C → Tok C
  ls2 : Tok C → Tok C
  mlp : Tok C → Tok C

/-- One patched transformer block: its attention parameters plus its
position-wise sublayers. -/
structure BlockParams (H D C : ℕ) where
  attn : AttnParams H D C
  maps : BlockMaps C

/-- Embedding of `ToMeBlock.forward` (tome.py lines 87–110), one batch
element, eval mode, parametrised over the block's attention attribute
`attnFn` (patched to `ToMeAttention.forward`, but the block body is written
against any module returning an output and a metric dict) and over the merge
machinery `M`.  Steps, in source order: call attention on `norm1(x)` with
`attnSizeArg`; assert the metric is a float or tensor (a failed assert aborts
the pass with the state untouched); add the first residual; destructively pop
the front of the shared schedule (an empty schedule is an `IndexError`);
if the popped `r > 0`, run the merge machinery and store the new size and
source; finally apply MLP and the second residual.  The returned `TomeInfo`
is the state of the shared `_tome_info` dict when the call ends, also when it
ends in an exception. -/
def ToMeBlock.forward {D C : ℕ} (bm : BlockMaps C)
    (attnFn : List (Tok C) → Option (List ℚ) → List (Tok C) × MetricDict D)
    (M : MergeOps D C) (info : TomeInfo) (x : List (Tok C)) :
    TomeInfo × Except String (List (Tok C)) :=
  let ar := attnFn (x.map bm.norm1) (attnSizeArg info)
  if ar.2.metric.isNumeric = false then
    (info, Except.error "metric not a float or torch.Tensor")
  else
    let x1 := addTok x (ar.1.map bm.ls1)
    match info.r with
    | [] => (info, Except.error "IndexError: pop from empty list")
    | r0 :: rest =>
      let info1 : TomeInfo := { info with r := rest }
      if r0 > 0 then
        let res := M.apply ar.2.metric r0 info1.classToken info1.distillToken
          x1 info1.size info1.traceSource info1.source
        let info2 : TomeInfo := { info1 with size := res.2.1, source := res.2.2 }
        (info2, Except.ok (addTok res.1 ((res.1.map bm.norm2).map (fun t => bm.ls2 (bm.mlp t)))))
      else
        (info1, Except.ok (addTok x1 ((x1.map bm.norm2).map (fun t => bm.ls2 (bm.mlp t)))))

/-- Embedding of the unpatched timm `Block.forward` (the behaviour with the
merge machinery disabled), eval mode: two residual sublayers around plain
attention and the MLP. -/
def Block.forward {H D C : ℕ} (b : BlockParams H D C) (ops : FloatOps)
    (x : List (Tok C)) : List (Tok C) :=
  let x1 := addTok x ((Attention.forward b.attn ops (x.map b.maps.norm1)).map b.maps.ls1)
  addTok x1 ((x1.map b.maps.norm2).map (fun t => b.maps.ls2 (b.maps.mlp t)))

/-- The value of `model.r`: either a plain int or a `(merge_ratio, inflect)`
pair, as set by the benchmark (`model.r = r_tuple`). -/
inductive RSpec : Type
  | int (r : ℤ)
  | ratioInflect (ratio : ℚ) (inflect : ℚ)
deriving DecidableEq

/-- Clamp a per-layer schedule to a total budget, front to back: each layer
keeps at most what remains of the budget. -/
def clampBudget : ℕ → List ℕ → List ℕ
  | _, [] => []
  | b, a :: t => min a b :: clampBudget (b - min a b) t

/-- Modelled from the spec: `parse_r`, the Merge Planner's `plan`, lives in
`opentome/tome/tome.py`, which is not under src/.  Per spec section 4.1 it
maps a layer count and the merge-ratio/shape configuration to an ordered
per-layer schedule of non-negative integers, of length equal to the layer
count, summing to at most the total merge budget, supporting a uniform split
for an int `r` and a monotonic linear decay across the normalised layer index
shaped by the inflect parameter for a `(ratio, inflect)` pair. -/
def parse_r (L : ℕ) (r : RSpec) (totalMerge : Option ℕ) : List ℕ :=
  let raw : List ℕ :=
    match r with
    | .int n => List.replicate L n.toNat
    | .ratioInflect ratio inflect =>
        (List.range L).map (fun (l : ℕ) =>
          (⌊ratio * (1 - inflect * ((2 * (l : ℚ)) / (((max (L - 1) 1 : ℕ) : ℚ)) - 1))⌋).toNat)
  match totalMerge with
  | none => raw
  | some T => clampBudget T raw

/-- A patched model: its block stack, the `model.r` configuration attribute,
and the `model._tome_info` dict. -/
structure ToMeVisionTransformer (H D C : ℕ) where
  blocks : List (BlockParams H D C)
  r : RSpec
  tomeInfo : TomeInfo

/-- Run the block stack in depth order, threading the shared `_tome_info`
state; an exception in a block aborts the pass and surfaces the state at the
moment it was raised. -/
def runBlocks {H D C : ℕ} (ops : FloatOps) (M : MergeOps D C) :
    List (BlockParams H D C) → TomeInfo → List (Tok C) →
    TomeInfo × Except String (List (Tok C))
  | [], info, x => (info, Except.ok x)
  | b :: bs, info, x =>
    match ToMeBlock.forward b.maps (ToMeAttention.forward b.attn ops) M info x with
    | (info1, Except.ok x1) => runBlocks ops M bs info1 x1
    | (info1, Except.error e) => (info1, Except.error e)

/-- The prologue of `ToMeVisionTransformer.forward` (tome.py lines 120–126):
derive a fresh schedule with `parse_r(len(self.blocks), self.r,
self._tome_info["total_merge"])` and reset size and source to `None`, leaving
the configuration fields untouched. -/
def prologueInfo {H D C : ℕ} (m : ToMeVisionTransformer H D C) : TomeInfo :=
  { m.tomeInfo with
    r := parse_r m.blocks.length m.r m.tomeInfo.totalMerge,
    size := none,
    source := none }

/-- Embedding of `ToMeVisionTransformer.forward`: the prologue followed by
`super().forward`, of which the block stack is the portion the merge
machinery touches (patch embedding and head are merge-agnostic pre/post
maps). -/
def ToMeVisionTransformer.forward {H D C : ℕ} (ops : FloatOps)
    (M : MergeOps D C) (m : ToMeVisionTransformer H D C) (x : List (Tok C)) :
    TomeInfo × Except String (List (Tok C)) :=
  runBlocks ops M m.blocks (prologueInfo m) x

/-- Embedding of the unpatched `VisionTransformer` block stack (the forward
pass with merging disabled). -/
def VisionTransformer.forward {H D C : ℕ} (ops : FloatOps)
    (blocks : List (BlockParams H D C)) (x : List (Tok C)) : List (Tok C) :=
  blocks.foldl (fun y b => Block.forward b ops y) x

/-- Modelled from the spec: the output of the Bipartite Matcher
(`bipartite_soft_matching`, in `opentome/tome/tome.py`, not under src/).  Per
spec section 4.2 the matcher returns an index mapping that selects a set of
source tokens to merge away (a subset of the A side) and, for each, a
destination token that survives (its B partner; many-to-one is allowed, a
source is merged at most once, and no destination is itself merged away). -/
structure MergeMapping (n : ℕ) where
  merged : Finset (Fin n)
  dst : Fin n → Fin n
  dst_not_merged : ∀ i ∈ merged, dst i ∉ merged

/-- The tokens that survive a merge step: everything not merged away. -/
def MergeMapping.kept {n : ℕ} (m : MergeMapping n) : Finset (Fin n) :=
  Finset.univ \ m.merged

theorem MergeMapping.kept_card {n : ℕ} (m : MergeMapping n) :
    m.kept.card = n - m.merged.card := by
  simp [MergeMapping.kept, Finset.card_sdiff (Finset.subset_univ _)]

/-- Modelled from the spec: the size update of the Merge Applicator
(`merge_wavg`, in `opentome/tome/tome.py`, not under src/).  Per spec section
4.3 the new size of a destination token is the sum of the merged sizes — its
own plus every source merged into it — and sizes of untouched tokens pass
through unchanged (only the entries at kept indices are meaningful; merged
indices are removed by `compactSize`). -/
def MergeMapping.applySize {n : ℕ} (m : MergeMapping n) (size : Fin n → ℚ) :
    Fin n → ℚ :=
  fun j => size j + ∑ i ∈ m.merged.filter (fun i => m.dst i = j), size i

/-- Modelled from the spec: the Applicator physically removes merged-away
tokens, so the size vector of the next block is the updated size restricted
to the kept indices, re-indexed in original order. -/
def MergeMapping.compactSize {n : ℕ} (m : MergeMapping n) (size : Fin n → ℚ) :
    Fin (n - m.merged.card) → ℚ :=
  fun j => m.applySize size (m.kept.orderIsoOfFin m.kept_card j)

/-- A sequence of merge steps across the blocks of one forward pass: each
step acts on the token count left by the previous one. -/
inductive MergeChain : ℕ → ℕ → Type
  | nil (n : ℕ) : MergeChain n n
  | cons {n k : ℕ} (m : MergeMapping n) (rest : MergeChain (n - m.merged.card) k) :
      MergeChain n k

/-- The size vector after a whole sequence of merges. -/
def applyChain : {n k : ℕ} → MergeChain n k → (Fin n → ℚ) → (Fin k → ℚ)
  | _, _, .nil _, size => size
  | _, _, .cons m rest, size => applyChain rest (m.compactSize size)

/-- A mutable store of `_tome_info` dict objects: Python object identity is
embedded as a numeric reference into a heap.  `model._tome_info = {...}`
allocates; `module._tome_info = model._tome_info` copies the reference, not
the dict. -/
structure Heap where
  next : ℕ
  mem : ℕ → TomeInfo

/-- Read the dict a reference points to. -/
def Heap.read (hp : Heap) (ref : ℕ) : TomeInfo := hp.mem ref

/-- Overwrite the dict a reference points to. -/
def Heap.write (hp : Heap) (ref : ℕ) (v : TomeInfo) : Heap :=
  { hp with mem := Function.update hp.mem ref v }

/-- Allocate a fresh dict and return its reference. -/
def Heap.alloc (hp : Heap) (v : TomeInfo) : ℕ × Heap :=
  (hp.next, { next := hp.next + 1, mem := Function.update hp.mem hp.next v })

/-- A transformer block as an object holding a `_tome_info` reference. -/
structure BlockObj where
  infoRef : ℕ

/-- A model as an object: its block modules, its `r` attribute, its
`_tome_info` reference (meaningless until `tome_apply_patch` has run), and
whether it owns class/distillation tokens. -/
structure ModelObj where
  blocks : List BlockObj
  r : RSpec
  infoRef : ℕ
  cls_token : Bool
  dist_token : Bool

/-- Embedding of `tome_apply_patch` (tome.py lines 137–173): set `model.r =
0`, allocate one fresh `_tome_info` dict on the model (`class_token` and
`distill_token` from the presence of `cls_token`/`dist_token`; lines 165–166
re-set `distill_token` to the same value and are absorbed), then walk the
modules and give every block the model's reference — the same dict object,
not a copy.  The dict's int placeholder `r = model.r` is represented by the
empty schedule, as in `TomeInfo`. -/
def tome_apply_patch (m : ModelObj) (trace_source prop_attn : Bool)
    (hp : Heap) : ModelObj × Heap :=
  let init : TomeInfo :=
    { r := [],
      size := none,
      source := none,
      totalMerge := none,
      traceSource := trace_source,
      propAttn := prop_attn,
      classToken := m.cls_token,
      distillToken := m.dist_token }
  let a := hp.alloc init
  ({ m with
      r := RSpec.int 0,
      infoRef := a.1,
      blocks := m.blocks.map (fun _ => { infoRef := a.1 }) },
   a.2)

/-- The prologue of `ToMeVisionTransformer.forward` acting on the heap
through the model's own `_tome_info` reference (tome.py lines 120–126): it
reads and rewrites `self._tome_info` in place. -/
def prologueH (m : ModelObj) (hp : Heap) : Heap :=
  let info := hp.read m.infoRef
  hp.write m.infoRef
    { info with
      r := parse_r m.blocks.length m.r info.totalMerge,
      size := none,
      source := none }

/-- The destructive schedule pop a block performs on the shared dict
(`self._tome_info["r"].pop(0)`, tome.py line 93), as a heap operation. -/
def popScheduleH (hp : Heap) (ref : ℕ) : Heap :=
  let info := hp.read ref
  hp.write ref { info with r := info.r.tail }

/-- A measurement slot that may hold the `np.nan` sentinel. -/
inductive NaNOr (α : Type) : Type
  | nan
  | val (a : α)
deriving DecidableEq

/-- The arguments of one `ThroughputBenchmark.run` call that end up in the
result row. -/
structure BenchConfig where
  model_name : String
  algorithm : String
  batch_size : ℕ
  seq_len : ℕ
  total_merge_num : ℕ
  h : Option ℕ
  use_naive_local : Bool
deriving DecidableEq

/-- What the fallible body of `ThroughputBenchmark.run`'s `try` block did:
either a successful timed measurement (latency, throughput, peak memory) or
an exception — out-of-memory or anything else — raised anywhere inside it. -/
inductive RunOutcome : Type
  | success (latency_ms throughput peak_mem_mb : ℚ)
  | failure (err : String)
deriving DecidableEq

/-- One row of `self.results` (benchmark.py lines 162–169). -/
structure ResultRow where
  model_name : String
  algorithm : String
  batch_size : ℕ
  seq_len : ℕ
  target_total_merge : ℕ
  h : NaNOr (Option ℕ)
  use_naive_local : NaNOr Bool
  latency_ms : NaNOr ℚ
  throughput_samples_per_sec : NaNOr ℚ
  peak_mem_mb : NaNOr ℚ
  status : String
deriving DecidableEq

/-- The keys of `ALGO_MAP` (benchmark.py lines 21–27). -/
def ALGO_KEYS : List String := ["none", "tome", "dtem", "pitome", "diffrate"]

/-- Embedding of `ThroughputBenchmark.run` (benchmark.py lines 39–170).  The
whole `try` body — model creation, patching, warmup and the timed
measurement, all external GPU work — is abstracted as the `outcome`
argument.  An unknown algorithm prints a warning and returns early, appending
nothing.  Otherwise `except Exception` turns any failure into nan sentinels
with status `failed`, and one row is appended in the success and the failure
case alike; `h` is recorded only for the tome algorithm and `use_naive_local`
only when additionally `h` is not `None`. -/
def ThroughputBenchmark.run (results : List ResultRow) (cfg : BenchConfig)
    (outcome : RunOutcome) : List ResultRow :=
  if cfg.algorithm ∈ ALGO_KEYS then
    let metrics : NaNOr ℚ × NaNOr ℚ × NaNOr ℚ × String :=
      match outcome with
      | .success l t p => (NaNOr.val l, NaNOr.val t, NaNOr.val p, "success")
      | .failure _ => (NaNOr.nan, NaNOr.nan, NaNOr.nan, "failed")
    results ++
      [{ model_name := cfg.model_name,
         algorithm := cfg.algorithm,
         batch_size := cfg.batch_size,
         seq_len := cfg.seq_len,
         target_total_merge := cfg.total_merge_num,
         h := if cfg.algorithm = "tome" then NaNOr.val cfg.h else NaNOr.nan,
         use_naive_local :=
           if cfg.algorithm = "tome" ∧ cfg.h ≠ none then
             NaNOr.val cfg.use_naive_local
           else NaNOr.nan,
         latency_ms := metrics.1,
         throughput_samples_per_sec := metrics.2.1,
         peak_mem_mb := metrics.2.2.1,
         status := metrics.2.2.2 }]
  else results

/-- A sweep driving many configurations through `run` in order, as the
external harness does. -/
def ThroughputBenchmark.sweep (results : List ResultRow)
    (trials : List (BenchConfig × RunOutcome)) : List ResultRow :=
  trials.foldl (fun acc t => ThroughputBenchmark.run acc t.1 t.2) results

/-- The configuration fields of `_tome_info`: everything except the
per-pass mutable `r`, `size` and `source`. -/
def TomeInfo.config (info : TomeInfo) : Option ℕ × Bool × Bool × Bool × Bool :=
  (info.totalMerge, info.traceSource, info.propAttn, info.classToken,
   info.distillToken)

/-- The `_tome_info` dict a forward invocation reads and writes:
`ToMeVisionTransformer.forward` uses `self._tome_info` (tome.py lines
121–124), the model-scoped attribute, so every invocation on the same model
object resolves to the same reference — there is no call-scoped state. -/
def forwardStateRef (m : ModelObj) : ℕ := m.infoRef

/-! ### Concrete instances for witnesses and counterexamples -/

/-- Concrete floating-point abstraction for witnesses. -/
def exOps : FloatOps := { exp := fun v => v, log := fun _ => 0 }

/-- Concrete single-head, one-channel attention parameters for witnesses. -/
def exAttnP : AttnParams 1 1 1 :=
  { wq := fun _ t => t, wk := fun _ t => t, wv := fun _ t => t,
    proj := fun hs => hs 0, scale := 1 }

/-- Concrete per-token block sublayers (all identities) for witnesses. -/
def exBM : BlockMaps 1 :=
  { norm1 := fun t => t, norm2 := fun t => t, ls1 := fun t => t,
    ls2 := fun t => t, mlp := fun t => t }

/-- Concrete merge machinery (the identity mapping) for witnesses. -/
def exM : MergeOps 1 1 :=
  { apply := fun _ _ _ _ x s _ src => (x, s, src) }

/-- Concrete one-token input sequence for witnesses. -/
def exX : List (Tok 1) := [fun _ => 0]

/-- Concrete block state whose schedule holds a single zero entry. -/
def exInfoC2 : TomeInfo :=
  { r := [0], size := none, source := none, totalMerge := none,
    traceSource := false, propAttn := false, classToken := false,
    distillToken := false }

/-- Concrete block state with proportional attention enabled and a size
vector present. -/
def exInfoPropOn : TomeInfo :=
  { exInfoC2 with propAttn := true, size := some [1] }

/-- Concrete stale mutable state: same configuration as `exInfoC2`, but with
leftover schedule, size and source from a previous pass. -/
def exInfoStale : TomeInfo :=
  { exInfoC2 with r := [5, 7], size := some [2, 3], source := some [{0}] }

/-- Concrete attention attribute returning a non-numeric metric (e.g. the
dict value is `None` because the module was not patched to `ToMeAttention`). -/
def exBadAttn : List (Tok 1) → Option (List ℚ) → List (Tok 1) × MetricDict 1 :=
  fun x _ => (x, { metric := MetricVal.invalid "NoneType" })

/-- Concrete patched block for witnesses. -/
def exBlockP : BlockParams 1 1 1 := { attn := exAttnP, maps := exBM }

/-- Concrete one-block patched model whose configuration derives an all-zero
schedule. -/
def exVit : ToMeVisionTransformer 1 1 1 :=
  { blocks := [exBlockP], r := RSpec.int 0, tomeInfo := exInfoC2 }

/-- A concrete merge step on two tokens: token 0 is merged into token 1. -/
def exMapping : MergeMapping 2 where
  merged := {0}
  dst := fun _ => 1
  dst_not_merged := by decide

/-- A concrete one-step merge chain on two tokens. -/
def exChain : MergeChain 2 1 := MergeChain.cons exMapping (MergeChain.nil 1)

/-- Concrete benchmark configuration whose trial fails. -/
def exCfg : BenchConfig :=
  { model_name := "vit_base_patch16_224", algorithm := "tome",
    batch_size := 32, seq_len := 196, total_merge_num := 98,
    h := none, use_naive_local := false }

/-- Concrete unpatched model object with one block. -/
def exObjM : ModelObj :=
  { blocks := [{ infoRef := 99 }], r := RSpec.int 3, infoRef := 99,
    cls_token := true, dist_token := false }

/-- Concrete heap before patching. -/
def exHp0 : Heap := { next := 0, mem := fun _ => exInfoC2 }

/-- The reference the patch hands to the single block of `exObjM`. -/
def exBlockObj : BlockObj := { infoRef := 0 }

/-- Concrete heap state during a pass, holding a two-entry schedule. -/
def exHp1 : Heap := { next := 1, mem := fun _ => exInfoStale }

/-- The patched model after the user sets `model.r = 1`, as the patch
docstring instructs. -/
def exUserModel : ModelObj :=
  { (tome_apply_patch exObjM true true exHp0).1 with r := RSpec.int 1 }

/-- The heap after patching. -/
def exPatchedHeap : Heap := (tome_apply_patch exObjM true true exHp0).2

/-! ### Helper lemmas -/

theorem MergeMapping.dst_mem_kept {n : ℕ} (m : MergeMapping n) {i : Fin n}
    (hi : i ∈ m.merged) : m.dst i ∈ m.kept := by
  simp [MergeMapping.kept, m.dst_not_merged i hi]

theorem MergeMapping.applySize_keptSum {n : ℕ} (m : MergeMapping n)
    (size : Fin n → ℚ) :
    ∑ j ∈ m.kept, m.applySize size j = ∑ j, size j := by
  unfold MergeMapping.applySize
  rw [Finset.sum_add_distrib,
    Finset.sum_fiberwise_of_maps_to (fun i hi => m.dst_mem_kept hi) size,
    MergeMapping.kept, Finset.sum_sdiff (Finset.subset_univ _)]

theorem MergeMapping.compactSize_sum {n : ℕ} (m : MergeMapping n)
    (size : Fin n → ℚ) :
    ∑ j, m.compactSize size j = ∑ j, size j := by
  rw [← m.applySize_keptSum size, ← Finset.sum_coe_sort m.kept (m.applySize size)]
  exact Equiv.sum_comp (m.kept.orderIsoOfFin m.kept_card).toEquiv
    (fun x => m.applySize size x)

theorem applyChain_sum {n k : ℕ} (c : MergeChain n k) (size : Fin n → ℚ) :
    ∑ j, applyChain c size j = ∑ i, size i := by
  induction c with
  | nil _ => rfl
  | cons m rest ih => rw [applyChain, ih, m.compactSize_sum]

/-! ### C1 -/

/-- C1: for every forward pass, block, and batch element, the sum of the size
vector after any sequence of merges equals the original pre-merge sequence
length (starting from the all-ones initialisation, every merge step conserves
the total size mass), and merging never decreases a token's contribution (a
surviving token's new size is at least its old size when sizes are
non-negative). -/
theorem tome_size_conservation (B n k : ℕ) (chains : Fin B → MergeChain n k)
    (b : Fin B) (m : MergeMapping n) (size : Fin n → ℚ)
    (hsize : ∀ i, 0 ≤ size i) :
    (∑ j, applyChain (chains b) (fun _ => (1 : ℚ)) j) = n
    ∧ ∀ j, size j ≤ m.applySize size j := by
  constructor
  · rw [applyChain_sum]
    simp [mul_comm]
  · intro j
    exact le_add_of_nonneg_right (Finset.sum_nonneg fun i _ => hsize i)

theorem tome_size_conservation_witness :
    (∑ j, applyChain exChain (fun _ => (1 : ℚ)) j) = ((2 : ℕ) : ℚ)
    ∧ ∀ j, (fun _ => (1 : ℚ)) j ≤ exMapping.applySize (fun _ => (1 : ℚ)) j :=
  tome_size_conservation 1 2 1 (fun _ => exChain) 0 exMapping (fun _ => 1)
    (fun _ => zero_le_one)

theorem addTok_length {C : ℕ} (x y : List (Tok C)) :
    (addTok x y).length = min x.length y.length :=
  List.length_zipWith ..

theorem ToMeBlock.forward_pop {D C : ℕ} (bm : BlockMaps C)
    (attnFn : List (Tok C) → Option (List ℚ) → List (Tok C) × MetricDict D)
    (M : MergeOps D C) (info : TomeInfo) (x : List (Tok C)) (r0 : ℕ)
    (rest : List ℕ) (hr : info.r = r0 :: rest)
    (hnum : (attnFn (x.map bm.norm1) (attnSizeArg info)).2.metric.isNumeric = true) :
    (ToMeBlock.forward bm attnFn M info x).1.r = rest := by
  simp only [ToMeBlock.forward, hr, hnum]
  by_cases h0 : r0 > 0 <;> simp [h0]

theorem ToMeBlock.forward_zero {D C : ℕ} (bm : BlockMaps C)
    (attnFn : List (Tok C) → Option (List ℚ) → List (Tok C) × MetricDict D)
    (M : MergeOps D C) (info : TomeInfo) (x : List (Tok C)) (rest : List ℕ)
    (hr : info.r = 0 :: rest)
    (hnum : (attnFn (x.map bm.norm1) (attnSizeArg info)).2.metric.isNumeric = true) :
    ToMeBlock.forward bm attnFn M info x =
      ({ info with r := rest },
       Except.ok
        (addTok (addTok x ((attnFn (x.map bm.norm1) (attnSizeArg info)).1.map bm.ls1))
          (((addTok x ((attnFn (x.map bm.norm1) (attnSizeArg info)).1.map bm.ls1)).map bm.norm2).map
            (fun t => bm.ls2 (bm.mlp t))))) := by
  simp [ToMeBlock.forward, hr, hnum]

/-! ### C2 -/

/-- C2: every invocation of `ToMeBlock.forward` consumes exactly one entry of
the shared schedule by destructive pop-front — also when that entry is 0 —
and when the popped entry is 0 the match and apply steps are skipped, leaving
size, source and the sequence length unchanged at that block.  The pop sits
after attention and the first residual: it is performed only once the metric
assertion has passed (hypothesis `hnum`; compare C5, where a failing metric
aborts the call with the schedule untouched). -/
theorem block_consumes_one_schedule_entry {D C : ℕ} (bm : BlockMaps C)
    (attnFn : List (Tok C) → Option (List ℚ) → List (Tok C) × MetricDict D)
    (M : MergeOps D C) (info : TomeInfo) (x : List (Tok C)) (r0 : ℕ)
    (rest : List ℕ) (hr : info.r = r0 :: rest)
    (hnum : (attnFn (x.map bm.norm1) (attnSizeArg info)).2.metric.isNumeric = true)
    (hlen : (attnFn (x.map bm.norm1) (attnSizeArg info)).1.length = x.length) :
    (ToMeBlock.forward bm attnFn M info x).1.r = rest
    ∧ (r0 = 0 →
        (ToMeBlock.forward bm attnFn M info x).1 = { info with r := rest }
        ∧ ∃ y, (ToMeBlock.forward bm attnFn M info x).2 = Except.ok y
            ∧ y.length = x.length) := by
  refine ⟨ToMeBlock.forward_pop bm attnFn M info x r0 rest hr hnum, ?_⟩
  intro h0
  subst h0
  rw [ToMeBlock.forward_zero bm attnFn M info x rest hr hnum]
  refine ⟨rfl, _, rfl, ?_⟩
  simp [addTok_length, hlen]

theorem block_consumes_one_schedule_entry_witness :
    exInfoC2.r = 0 :: []
    ∧ (ToMeAttention.forward exAttnP exOps (exX.map exBM.norm1)
        (attnSizeArg exInfoC2)).2.metric.isNumeric = true
    ∧ ((ToMeAttention.forward exAttnP exOps (exX.map exBM.norm1)
        (attnSizeArg exInfoC2)).1).length = exX.length
    ∧ ((ToMeBlock.forward exBM (ToMeAttention.forward exAttnP exOps) exM
          exInfoC2 exX).1.r = []
        ∧ ((ToMeBlock.forward exBM (ToMeAttention.forward exAttnP exOps) exM
              exInfoC2 exX).1 = { exInfoC2 with r := [] }
            ∧ ∃ y, (ToMeBlock.forward exBM (ToMeAttention.forward exAttnP exOps)
                exM exInfoC2 exX).2 = Except.ok y ∧ y.length = exX.length)) := by
  refine ⟨rfl, rfl, rfl, ?_⟩
  have h := block_consumes_one_schedule_entry exBM
    (ToMeAttention.forward exAttnP exOps) exM exInfoC2 exX 0 [] rfl rfl rfl
  exact ⟨h.1, h.2 rfl⟩

/-! ### C5 -/

/-- C5: if the metric returned by the attention component is not a float and
not a tensor, `ToMeBlock.forward` fails its assert and aborts the pass with
the error of tome.py line 91, before any merge or MLP step runs: the shared
state is returned exactly as it was — in particular no schedule entry is
consumed and size and source are untouched — and no output is produced. -/
theorem metric_assert_aborts {D C : ℕ} (bm : BlockMaps C)
    (attnFn : List (Tok C) → Option (List ℚ) → List (Tok C) × MetricDict D)
    (M : MergeOps D C) (info : TomeInfo) (x : List (Tok C))
    (hbad : (attnFn (x.map bm.norm1) (attnSizeArg info)).2.metric.isNumeric = false) :
    ToMeBlock.forward bm attnFn M info x =
      (info, Except.error "metric not a float or torch.Tensor") := by
  simp [ToMeBlock.forward, hbad]

theorem metric_assert_aborts_witness :
    (exBadAttn (exX.map exBM.norm1) (attnSizeArg exInfoC2)).2.metric.isNumeric = false
    ∧ ToMeBlock.forward exBM exBadAttn exM exInfoC2 exX =
        (exInfoC2, Except.error "metric not a float or torch.Tensor") :=
  ⟨rfl, metric_assert_aborts exBM exBadAttn exM exInfoC2 exX rfl⟩

theorem ToMeAttention.preScore_none {H D C : ℕ} (p : AttnParams H D C)
    (ops : FloatOps) (x : List (Tok C)) (h : Fin H) (i j : ℕ) :
    ToMeAttention.preScore p ops x none h i j = Attention.preScore p x h i j := by
  simp [ToMeAttention.preScore, Attention.preScore]

theorem ToMeAttention.scoreRow_none {H D C : ℕ} (p : AttnParams H D C)
    (ops : FloatOps) (x : List (Tok C)) (h : Fin H) (i : ℕ) :
    ToMeAttention.scoreRow p ops x none h i =
      (List.range x.length).map (fun j => Attention.preScore p x h i j) := by
  unfold ToMeAttention.scoreRow
  simp only [ToMeAttention.preScore_none]

theorem ToMeAttention.forward_none_eq {H D C : ℕ} (p : AttnParams H D C)
    (ops : FloatOps) (x : List (Tok C)) :
    (ToMeAttention.forward p ops x none).1 = Attention.forward p ops x := by
  unfold ToMeAttention.forward Attention.forward ToMeAttention.headOut
  dsimp only
  simp only [ToMeAttention.scoreRow_none]

/-! ### C3 -/

/-- C3: when proportional attention is enabled the block passes the current
size vector to attention (`attnSizeArg`), and attention biases its
pre-softmax score of key token `j` by `log(size_j)`; when it is disabled the
block passes no size, and attention with no size computes exactly the plain
size-free timm attention (size-agnostic output). -/
theorem prop_attn_size_bias {H D C : ℕ} (p : AttnParams H D C) (ops : FloatOps)
    (info : TomeInfo) (x : List (Tok C)) (s : List ℚ) (h : Fin H) (i j : ℕ) :
    (info.propAttn = true → attnSizeArg info = info.size)
    ∧ (info.propAttn = false → attnSizeArg info = none)
    ∧ ToMeAttention.preScore p ops x (some s) h i j
        = Attention.preScore p x h i j + ops.log (s.getD j 0)
    ∧ (ToMeAttention.forward p ops x none).1 = Attention.forward p ops x := by
  refine ⟨fun hp => by simp [attnSizeArg, hp],
    fun hp => by simp [attnSizeArg, hp], ?_,
    ToMeAttention.forward_none_eq p ops x⟩
  simp [ToMeAttention.preScore, Attention.preScore]

theorem prop_attn_size_bias_witness :
    (attnSizeArg exInfoPropOn = exInfoPropOn.size)
    ∧ (attnSizeArg exInfoC2 = none)
    ∧ ToMeAttention.preScore exAttnP exOps exX (some [1]) 0 0 0
        = Attention.preScore exAttnP exX 0 0 0 + exOps.log ([(1 : ℚ)].getD 0 0)
    ∧ (ToMeAttention.forward exAttnP exOps exX none).1
        = Attention.forward exAttnP exOps exX := by
  have h1 := prop_attn_size_bias exAttnP exOps exInfoPropOn exX [1] 0 0 0
  have h2 := prop_attn_size_bias exAttnP exOps exInfoC2 exX [1] 0 0 0
  exact ⟨h1.1 rfl, h2.2.1 rfl, h1.2.2.1, h1.2.2.2⟩

theorem ToMeAttention.forward_fst_length {H D C : ℕ} (p : AttnParams H D C)
    (ops : FloatOps) (x : List (Tok C)) (size : Option (List ℚ)) :
    (ToMeAttention.forward p ops x size).1.length = x.length := by
  simp [ToMeAttention.forward]

theorem ToMeAttention.scoreRow_ones {H D C : ℕ} (p : AttnParams H D C)
    (ops : FloatOps) (x : List (Tok C)) (hlog : ops.log 1 = 0) (h : Fin H) (i : ℕ) :
    ToMeAttention.scoreRow p ops x (some (List.replicate x.length 1)) h i =
      ToMeAttention.scoreRow p ops x none h i := by
  unfold ToMeAttention.scoreRow
  apply List.map_congr_left
  intro j hj
  have hjlt : j < x.length := List.mem_range.mp hj
  simp [ToMeAttention.preScore, List.getD_eq_getElem?_getD,
    List.getElem?_replicate, hjlt, hlog]

theorem ToMeAttention.forward_ones {H D C : ℕ} (p : AttnParams H D C)
    (ops : FloatOps) (x : List (Tok C)) (hlog : ops.log 1 = 0) :
    ToMeAttention.forward p ops x (some (List.replicate x.length 1)) =
      ToMeAttention.forward p ops x none := by
  unfold ToMeAttention.forward ToMeAttention.headOut
  simp only [ToMeAttention.scoreRow_ones p ops x hlog]

theorem clampBudget_length (b : ℕ) (l : List ℕ) :
    (clampBudget b l).length = l.length := by
  induction l generalizing b with
  | nil => rfl
  | cons a t ih => simp [clampBudget, ih]

theorem parse_r_length (L : ℕ) (r : RSpec) (t : Option ℕ) :
    (parse_r L r t).length = L := by
  unfold parse_r
  cases t <;> cases r <;>
    simp only [clampBudget_length, List.length_replicate, List.length_map,
      List.length_range]

theorem runBlocks_zero {H D C : ℕ} (ops : FloatOps) (M : MergeOps D C)
    (bs : List (BlockParams H D C)) (info : TomeInfo) (x : List (Tok C))
    (hlen : info.r.length = bs.length) (hz : ∀ e ∈ info.r, e = 0)
    (hsize : info.size = none) :
    runBlocks ops M bs info x =
      ({ info with r := [] }, Except.ok (VisionTransformer.forward ops bs x)) := by
  induction bs generalizing info x with
  | nil =>
    have h0 : info.r = [] := List.length_eq_zero.mp hlen
    cases info
    simp_all [runBlocks, VisionTransformer.forward]
  | cons b bs ih =>
    obtain ⟨r0, rest, hr⟩ : ∃ r0 rest, info.r = r0 :: rest := by
      cases hcs : info.r with
      | nil => rw [hcs] at hlen; simp at hlen
      | cons a t => exact ⟨a, t, rfl⟩
    have hr0 : r0 = 0 := hz r0 (by rw [hr]; exact List.mem_cons_self _ _)
    subst hr0
    have hnone : attnSizeArg info = none := by
      simp [attnSizeArg, hsize]
    have hfb := ToMeBlock.forward_zero b.maps (ToMeAttention.forward b.attn ops)
      M info x rest hr rfl
    have hlen' : rest.length = bs.length := by
      have h2 := hlen
      rw [hr] at h2
      simpa using h2
    have hz' : ∀ e ∈ rest, e = 0 :=
      fun e he => hz e (by rw [hr]; exact List.mem_cons_of_mem _ he)
    unfold runBlocks
    rw [hfb]
    dsimp only
    rw [ih { info with r := rest } _ hlen' hz' hsize]
    rw [hnone, ToMeAttention.forward_none_eq]
    rfl

/-! ### C4 -/

/-- C4: if every schedule entry derived for the pass is 0, the merge
machinery leaves everything unchanged end to end — the output equals the
forward pass of the unpatched block stack (merging disabled), and the size
vector and source trace end the pass in their reset state — and the
proportional-attention bias is a no-op when all sizes are 1, since
`log(1) = 0` makes biased attention coincide with unbiased attention. -/
theorem zero_schedule_identity {H D C : ℕ} (ops : FloatOps) (M : MergeOps D C)
    (m : ToMeVisionTransformer H D C) (x : List (Tok C))
    (hz : ∀ e ∈ parse_r m.blocks.length m.r m.tomeInfo.totalMerge, e = 0)
    (hlog : ops.log 1 = 0) :
    (ToMeVisionTransformer.forward ops M m x).2
        = Except.ok (VisionTransformer.forward ops m.blocks x)
    ∧ (ToMeVisionTransformer.forward ops M m x).1.size = none
    ∧ (ToMeVisionTransformer.forward ops M m x).1.source = none
    ∧ ∀ (p : AttnParams H D C) (y : List (Tok C)),
        ToMeAttention.forward p ops y (some (List.replicate y.length 1))
          = ToMeAttention.forward p ops y none := by
  have hrun := runBlocks_zero ops M m.blocks (prologueInfo m) x
    (by simp [prologueInfo, parse_r_length]) hz rfl
  unfold ToMeVisionTransformer.forward
  rw [hrun]
  exact ⟨rfl, rfl, rfl, fun p y => ToMeAttention.forward_ones p ops y hlog⟩

theorem zero_schedule_identity_witness :
    (∀ e ∈ parse_r exVit.blocks.length exVit.r exVit.tomeInfo.totalMerge, e = 0)
    ∧ ((ToMeVisionTransformer.forward exOps exM exVit exX).2
        = Except.ok (VisionTransformer.forward exOps exVit.blocks exX)
      ∧ (ToMeVisionTransformer.forward exOps exM exVit exX).1.size = none
      ∧ (ToMeVisionTransformer.forward exOps exM exVit exX).1.source = none
      ∧ ∀ (p : AttnParams 1 1 1) (y : List (Tok 1)),
          ToMeAttention.forward p exOps y (some (List.replicate y.length 1))
            = ToMeAttention.forward p exOps y none) :=
  ⟨by decide, zero_schedule_identity exOps exM exVit exX (by decide) rfl⟩

theorem ToMeBlock.forward_config {D C : ℕ} (bm : BlockMaps C)
    (attnFn : List (Tok C) → Option (List ℚ) → List (Tok C) × MetricDict D)
    (M : MergeOps D C) (info : TomeInfo) (x : List (Tok C)) :
    (ToMeBlock.forward bm attnFn M info x).1.config = info.config := by
  unfold ToMeBlock.forward
  dsimp only
  split
  · rfl
  · split
    · rfl
    · split <;> rfl

theorem runBlocks_config {H D C : ℕ} (ops : FloatOps) (M : MergeOps D C)
    (bs : List (BlockParams H D C)) (info : TomeInfo) (x : List (Tok C)) :
    (runBlocks ops M bs info x).1.config = info.config := by
  induction bs generalizing info x with
  | nil => rfl
  | cons b bs ih =>
    unfold runBlocks
    have hc := ToMeBlock.forward_config b.maps (ToMeAttention.forward b.attn ops)
      M info x
    cases hfb : ToMeBlock.forward b.maps (ToMeAttention.forward b.attn ops) M info x with
    | mk info1 res =>
      rw [hfb] at hc
      cases res with
      | ok x1 => rw [ih info1 x1]; exact hc
      | error e => exact hc

theorem prologueInfo_congr {H D C : ℕ} (m : ToMeVisionTransformer H D C)
    (info' : TomeInfo) (hcfg : info'.config = m.tomeInfo.config) :
    prologueInfo { m with tomeInfo := info' } = prologueInfo m := by
  simp only [TomeInfo.config, Prod.mk.injEq] at hcfg
  obtain ⟨h1, h2, h3, h4, h5⟩ := hcfg
  unfold prologueInfo
  simp_all

/-! ### C6 -/

/-- C6: a forward call is a prologue — run once, before any block — that
re-derives the schedule from the configuration alone and resets size and
source, so the call's result does not depend on the mutable state (`r`,
`size`, `source`) left behind by any previous invocation; in particular a
second forward call on the state produced by the first yields the identical
result, and re-derives the identical per-layer schedule (determinism). -/
theorem forward_prologue_fresh {H D C : ℕ} (ops : FloatOps) (M : MergeOps D C)
    (m : ToMeVisionTransformer H D C) (x : List (Tok C)) (info' : TomeInfo)
    (hcfg : info'.config = m.tomeInfo.config) :
    ToMeVisionTransformer.forward ops M { m with tomeInfo := info' } x
        = ToMeVisionTransformer.forward ops M m x
    ∧ ToMeVisionTransformer.forward ops M
        { m with tomeInfo := (ToMeVisionTransformer.forward ops M m x).1 } x
        = ToMeVisionTransformer.forward ops M m x
    ∧ prologueInfo { m with tomeInfo := (ToMeVisionTransformer.forward ops M m x).1 }
        = prologueInfo m := by
  have key : ∀ i' : TomeInfo, i'.config = m.tomeInfo.config →
      ToMeVisionTransformer.forward ops M { m with tomeInfo := i' } x
        = ToMeVisionTransformer.forward ops M m x := by
    intro i' h
    unfold ToMeVisionTransformer.forward
    rw [prologueInfo_congr m i' h]
  have h2 : ((ToMeVisionTransformer.forward ops M m x).1).config
      = m.tomeInfo.config := by
    unfold ToMeVisionTransformer.forward
    rw [runBlocks_config]
    rfl
  exact ⟨key info' hcfg, key _ h2, prologueInfo_congr m _ h2⟩

theorem forward_prologue_fresh_witness :
    exInfoStale.config = exVit.tomeInfo.config
    ∧ (ToMeVisionTransformer.forward exOps exM { exVit with tomeInfo := exInfoStale } exX
        = ToMeVisionTransformer.forward exOps exM exVit exX
      ∧ ToMeVisionTransformer.forward exOps exM
          { exVit with tomeInfo := (ToMeVisionTransformer.forward exOps exM exVit exX).1 } exX
          = ToMeVisionTransformer.forward exOps exM exVit exX
      ∧ prologueInfo { exVit with tomeInfo := (ToMeVisionTransformer.forward exOps exM exVit exX).1 }
          = prologueInfo exVit) :=
  ⟨rfl, forward_prologue_fresh exOps exM exVit exX exInfoStale rfl⟩

/-! ### C8 -/

/-- C8: every call of `ToMeAttention.forward` returns, alongside its output,
a dict whose `"metric"` key holds a `[batch, tokens, channels]` tensor equal
to the mean of the key projections across the attention heads — recomputed
from the call's own input, which at each block is the current (possibly
already-merged) sequence, so it has one row per current token (third
conjunct: the tokens dimension matches the input length), and this holds for
every batch element of the batched call. -/
theorem attention_metric_mean_keys {H D C : ℕ} (p : AttnParams H D C)
    (ops : FloatOps) (x : List (Tok C)) (size : Option (List ℚ))
    (xs : List (List (Tok C))) (b : ℕ) (hb : b < xs.length) :
    (ToMeAttention.forward p ops x size).2.metric
        = MetricVal.tensor (x.map (fun t => fun d => (∑ h : Fin H, p.wk h t d) / (H : ℚ)))
    ∧ (ToMeAttention.metricTensor p x).length = x.length
    ∧ ((ToMeAttention.forwardBatch p ops xs none).getD b
          ([], { metric := MetricVal.invalid "" })).2.metric
        = MetricVal.tensor (ToMeAttention.metricTensor p (xs.getD b [])) := by
  refine ⟨rfl, by simp [ToMeAttention.metricTensor], ?_⟩
  unfold ToMeAttention.forwardBatch
  simp [List.getD_eq_getElem?_getD, List.getElem?_map, List.getElem?_eq_getElem hb,
    ToMeAttention.forward]

theorem attention_metric_mean_keys_witness :
    0 < [exX].length
    ∧ ((ToMeAttention.forward exAttnP exOps exX none).2.metric
        = MetricVal.tensor (exX.map (fun t => fun d => (∑ h : Fin 1, exAttnP.wk h t d) / ((1 : ℕ) : ℚ)))
      ∧ (ToMeAttention.metricTensor exAttnP exX).length = exX.length
      ∧ ((ToMeAttention.forwardBatch exAttnP exOps [exX] none).getD 0
            ([], { metric := MetricVal.invalid "" })).2.metric
          = MetricVal.tensor (ToMeAttention.metricTensor exAttnP ([exX].getD 0 []))) :=
  ⟨Nat.succ_pos 0,
   attention_metric_mean_keys exAttnP exOps exX none [exX] 0 (Nat.succ_pos 0)⟩

/-! ### C9 -/

/-- C9: when the fallible body of a timed benchmark trial raises — an
out-of-memory error or any unexpected exception — `ThroughputBenchmark.run`
records the trial as failed: it appends exactly one result row carrying the
nan sentinel for latency, throughput and peak memory and status `failed`,
and returns normally rather than propagating, so a sweep over many
configurations simply continues with the next configuration. -/
theorem failed_trial_recorded (results : List ResultRow) (cfg : BenchConfig)
    (err : String) (rest : List (BenchConfig × RunOutcome))
    (halgo : cfg.algorithm ∈ ALGO_KEYS) :
    ThroughputBenchmark.run results cfg (RunOutcome.failure err)
      = results ++
        [{ model_name := cfg.model_name,
           algorithm := cfg.algorithm,
           batch_size := cfg.batch_size,
           seq_len := cfg.seq_len,
           target_total_merge := cfg.total_merge_num,
           h := if cfg.algorithm = "tome" then NaNOr.val cfg.h else NaNOr.nan,
           use_naive_local :=
             if cfg.algorithm = "tome" ∧ cfg.h ≠ none then
               NaNOr.val cfg.use_naive_local
             else NaNOr.nan,
           latency_ms := NaNOr.nan,
           throughput_samples_per_sec := NaNOr.nan,
           peak_mem_mb := NaNOr.nan,
           status := "failed" }]
    ∧ ThroughputBenchmark.sweep results ((cfg, RunOutcome.failure err) :: rest)
        = ThroughputBenchmark.sweep
            (ThroughputBenchmark.run results cfg (RunOutcome.failure err)) rest := by
  constructor
  · unfold ThroughputBenchmark.run
    rw [if_pos halgo]
  · rfl

theorem failed_trial_recorded_witness :
    exCfg.algorithm ∈ ALGO_KEYS
    ∧ (ThroughputBenchmark.run [] exCfg (RunOutcome.failure "CUDA out of memory")
        = [] ++
          [{ model_name := exCfg.model_name,
             algorithm := exCfg.algorithm,
             batch_size := exCfg.batch_size,
             seq_len := exCfg.seq_len,
             target_total_merge := exCfg.total_merge_num,
             h := if exCfg.algorithm = "tome" then NaNOr.val exCfg.h else NaNOr.nan,
             use_naive_local :=
               if exCfg.algorithm = "tome" ∧ exCfg.h ≠ none then
                 NaNOr.val exCfg.use_naive_local
               else NaNOr.nan,
             latency_ms := NaNOr.nan,
             throughput_samples_per_sec := NaNOr.nan,
             peak_mem_mb := NaNOr.nan,
             status := "failed" }]
      ∧ ThroughputBenchmark.sweep [] ((exCfg, RunOutcome.failure "CUDA out of memory") :: [])
          = ThroughputBenchmark.sweep
              (ThroughputBenchmark.run [] exCfg (RunOutcome.failure "CUDA out of memory")) []) :=
  ⟨List.mem_cons_of_mem _ (List.mem_cons_self _ _),
   failed_trial_recorded [] exCfg "CUDA out of memory" []
     (List.mem_cons_of_mem _ (List.mem_cons_self _ _))⟩

theorem Heap.read_write (hp : Heap) (ref : ℕ) (v : TomeInfo) :
    (hp.write ref v).read ref = v := by
  simp [Heap.read, Heap.write]

theorem popScheduleH_read (hp : Heap) (ref : ℕ) :
    (popScheduleH hp ref).read ref
      = { hp.read ref with r := (hp.read ref).r.tail } := by
  simp [popScheduleH, Heap.read_write]

theorem tome_apply_patch_blocks (m : ModelObj) (tS pA : Bool) (hp : Heap) :
    ∀ b ∈ (tome_apply_patch m tS pA hp).1.blocks,
      b.infoRef = (tome_apply_patch m tS pA hp).1.infoRef := by
  intro b hb
  unfold tome_apply_patch at hb ⊢
  dsimp [Heap.alloc] at hb ⊢
  obtain ⟨_, _, rfl⟩ := List.mem_map.mp hb
  rfl

/-! ### C10 -/

/-- C10: after `tome_apply_patch`, every patched block's `_tome_info` is the
very same dict object as the model's `_tome_info` (identical reference for
every block).  Consequently a schedule entry popped through any block's
reference is observed as consumed through every other block's reference and
through the model's, and a configuration write through the model's reference
is immediately visible through every block's reference. -/
theorem patched_blocks_alias_model_info (m : ModelObj) (tS pA : Bool)
    (hp : Heap) :
    (∀ b ∈ (tome_apply_patch m tS pA hp).1.blocks,
        b.infoRef = (tome_apply_patch m tS pA hp).1.infoRef)
    ∧ (∀ b1 ∈ (tome_apply_patch m tS pA hp).1.blocks,
        ∀ b2 ∈ (tome_apply_patch m tS pA hp).1.blocks, ∀ hp' : Heap,
          ((popScheduleH hp' b1.infoRef).read b2.infoRef).r
              = (hp'.read b1.infoRef).r.tail
          ∧ ((popScheduleH hp' b1.infoRef).read
                (tome_apply_patch m tS pA hp).1.infoRef).r
              = (hp'.read b1.infoRef).r.tail)
    ∧ (∀ b ∈ (tome_apply_patch m tS pA hp).1.blocks,
        ∀ (hp' : Heap) (v : TomeInfo),
          (hp'.write (tome_apply_patch m tS pA hp).1.infoRef v).read b.infoRef
            = v) := by
  refine ⟨tome_apply_patch_blocks m tS pA hp, ?_, ?_⟩
  · intro b1 h1 b2 h2 hp'
    rw [tome_apply_patch_blocks m tS pA hp b1 h1,
      tome_apply_patch_blocks m tS pA hp b2 h2]
    constructor <;> rw [popScheduleH_read]
  · intro b hb hp' v
    rw [tome_apply_patch_blocks m tS pA hp b hb, Heap.read_write]

theorem exBlockObj_mem :
    exBlockObj ∈ (tome_apply_patch exObjM true true exHp0).1.blocks :=
  List.mem_singleton.mpr rfl

theorem patched_blocks_alias_model_info_witness :
    exBlockObj ∈ (tome_apply_patch exObjM true true exHp0).1.blocks
    ∧ exBlockObj.infoRef = (tome_apply_patch exObjM true true exHp0).1.infoRef
    ∧ ((popScheduleH exHp1 exBlockObj.infoRef).read
          (tome_apply_patch exObjM true true exHp0).1.infoRef).r
        = (exHp1.read exBlockObj.infoRef).r.tail
    ∧ (exHp1.write (tome_apply_patch exObjM true true exHp0).1.infoRef
          exInfoPropOn).read exBlockObj.infoRef = exInfoPropOn := by
  have h := patched_blocks_alias_model_info exObjM true true exHp0
  exact ⟨exBlockObj_mem, h.1 _ exBlockObj_mem,
    (h.2.1 _ exBlockObj_mem _ exBlockObj_mem exHp1).2,
    h.2.2 _ exBlockObj_mem exHp1 exInfoPropOn⟩

/-! ### C7 -/

/-- C7 counterexample: the per-forward-pass merge state IS shared across
invocations of the same model instance.  Concretely: invocation A runs its
prologue (schedule becomes `[1]`) and its first block pops (schedule `[]`);
a concurrent invocation B then runs its prologue through the very same
model-scoped reference, and the state A continues from has been reset to
`[1]` — so invocations do not receive independently initialized state, and
the claim is false on this input. -/
theorem concurrent_forward_state_shared_counterexample :
    ((prologueH exUserModel
        (popScheduleH (prologueH exUserModel exPatchedHeap)
          (forwardStateRef exUserModel))).read (forwardStateRef exUserModel)).r
      ≠ ((popScheduleH (prologueH exUserModel exPatchedHeap)
          (forwardStateRef exUserModel)).read (forwardStateRef exUserModel)).r := by
  decide

/-- C7 amended (what the code does instead): the per-forward-pass merge
state is model-scoped and shared, not call-scoped: after `tome_apply_patch`
every block and every forward invocation of the same model instance resolve
to the single model-scoped dict, and each invocation's prologue
reinitialises that shared dict in place — so concurrent forward passes on
one model instance interfere and are unsafe. -/
theorem tome_state_model_scoped (m : ModelObj) (tS pA : Bool) (hp : Heap) :
    (∀ b ∈ (tome_apply_patch m tS pA hp).1.blocks,
        b.infoRef = forwardStateRef (tome_apply_patch m tS pA hp).1)
    ∧ (∀ (m' : ModelObj) (hp' : Heap),
        ((prologueH m' hp').read (forwardStateRef m')).r
            = parse_r m'.blocks.length m'.r ((hp'.read m'.infoRef).totalMerge)
        ∧ ((prologueH m' hp').read (forwardStateRef m')).size = none
        ∧ ((prologueH m' hp').read (forwardStateRef m')).source = none) := by
  refine ⟨tome_apply_patch_blocks m tS pA hp, ?_⟩
  intro m' hp'
  unfold prologueH forwardStateRef
  rw [Heap.read_write]
  exact ⟨rfl, rfl, rfl⟩

theorem tome_state_model_scoped_witness :
    exBlockObj.infoRef = forwardStateRef (tome_apply_patch exObjM true true exHp0).1
    ∧ ((prologueH exUserModel exPatchedHeap).read (forwardStateRef exUserModel)).r
        = parse_r exUserModel.blocks.length exUserModel.r
            ((exPatchedHeap.read exUserModel.infoRef).totalMerge) := by
  have h := tome_state_model_scoped exObjM true true exHp0
  exact ⟨h.1 _ exBlockObj_mem, (h.2 exUserModel exPatchedHeap).1⟩

end OpenToMe
